import Mathlib

/-!
Shallow embedding of the core of `briantilburgs/waterstanden` (`src/main.py`):
the alarm classifier and evaluator (`check_alarms`), the time-series
aggregator (`create_print_data`), the HTTP response normalizer (`post_json`)
and the orchestration loop of `main`.

Python `dict`s are modelled as insertion-ordered association lists
(`List (String × α)`) with first-match lookup and in-place update, matching
CPython dict semantics.  Float arithmetic of the classifier is modelled
over `ℚ`; timestamps compared against the evaluation cutoff are modelled as
natural numbers (hours on a clock line), since the code compares parsed
datetimes with `<=`.  Code that can raise an exception is modelled in
`Except String`.
-/

namespace Waterstanden

/-- The severity scale of `check_alarms` (`main.py` lines 282–304). -/
inductive Severity
  | GREEN
  | YELLOW
  | ORANGE
  | RED
  | BLACK
deriving DecidableEq, Repr

/-- The `order` dict of `main.py` line 294:
`order = {"GREEN": 0, "YELLOW": 1, "ORANGE": 2, "RED": 3, "BLACK": 4}`. -/
def Severity.rank : Severity → Nat
  | .GREEN => 0
  | .YELLOW => 1
  | .ORANGE => 2
  | .RED => 3
  | .BLACK => 4

/-- The threshold cascade of `check_alarms` (`main.py` lines 278–291):
`span = max_level - norm_level`, then
`h >= max_level → BLACK`, `h >= norm_level + 0.95*span → RED`,
`h >= norm_level + 0.75*span → ORANGE`, `h >= norm_level + 0.50*span → YELLOW`,
otherwise `GREEN`. -/
def classify (max_level norm_level h : ℚ) : Severity :=
  if h ≥ max_level then .BLACK
  else if h ≥ norm_level + 95/100 * (max_level - norm_level) then .RED
  else if h ≥ norm_level + 75/100 * (max_level - norm_level) then .ORANGE
  else if h ≥ norm_level + 50/100 * (max_level - norm_level) then .YELLOW
  else .GREEN

/-! ## Python dicts as insertion-ordered association lists -/
/-- Lookup `d.get(k)` / `d[k]`: first match wins. -/
def getKey {α : Type} : List (String × α) → String → Option α
  | [], _ => none
  | (k', v) :: rest, k => if k' = k then some v else getKey rest k

/-- Assignment `d[k] = v`: replace the value in place if the key is present, else append
at the end (CPython dict insertion order). -/
def setKey {α : Type} : List (String × α) → String → α → List (String × α)
  | [], k, v => [(k, v)]
  | (k', v') :: rest, k, v =>
    if k' = k then (k, v) :: rest else (k', v') :: setKey rest k v

/-- Python `d.setdefault(k, v)`: insert `(k, v)` at the end only when `k` is absent. -/
def setdefault {α : Type} (m : List (String × α)) (k : String) (v : α) :
    List (String × α) :=
  if (getKey m k).isSome then m else m ++ [(k, v)]

/-! ## The aggregator `create_print_data` (`main.py` lines 146–160)

A raw observation record (`meting`) carries a `Tijdstip` string and an
optional `Meetwaarde` object with an optional `Waarde_Numeriek` field;
`meetwaarde = none` models a record without the `Meetwaarde` key, and
`meetwaarde = some none` one whose `Meetwaarde` lacks `Waarde_Numeriek`.
The Python line `print_dict[locatie][timestamp] =
meting["Meetwaarde"]["Waarde_Numeriek"]` raises a `KeyError` in either
case, modelled as `Except.error`.  Cells of the aggregated table are
either the `{}` written into the `index` sub-dict or a numeric value. -/
structure Meting where
  tijdstip : String
  meetwaarde : Option (Option ℚ)
deriving DecidableEq, Repr

structure LocData where
  naam : String
  metingenLijst : Option (List Meting)
deriving DecidableEq, Repr

inductive Cell
  | emptyDict
  | num (v : ℚ)
deriving DecidableEq, Repr

/-- The `print_dict` under construction: one dict holding the `index`
sub-dict and one sub-dict per station label. -/
def PrintDict : Type := List (String × List (String × Cell))

/-- Assignment `print_dict[k][ts] = c`; at every call site `k` is already a key of
`print_dict` (`index` from initialization, the station label from
`setdefault`), so reading the sub-dict with default `[]` is faithful. -/
def setInner (pd : PrintDict) (k ts : String) (c : Cell) : PrintDict :=
  setKey pd k (setKey ((getKey pd k).getD []) ts c)

/-- Reading `print_dict.get(loc, ...)[ts]`: the cell stored for station `loc` at
truncated timestamp `ts`, if any. -/
def cellAt (pd : PrintDict) (loc ts : String) : Option Cell :=
  (getKey pd loc).bind (fun sub => getKey sub ts)

/-- The inner loop of `create_print_data` over `loc_data["MetingenLijst"]`
(`main.py` lines 155–158): truncate the timestamp to hour granularity
(`[:13]`), register it in `index`, then store the numeric value — raising
`KeyError` when `Meetwaarde` or `Waarde_Numeriek` is missing. -/
def processMetingen (locatie : String) : List Meting → PrintDict → Except String PrintDict
  | [], pd => .ok pd
  | m :: rest, pd =>
    let pd1 := setInner pd "index" (m.tijdstip.take 13) .emptyDict
    match m.meetwaarde with
    | none => .error "KeyError: Meetwaarde"
    | some none => .error "KeyError: Waarde_Numeriek"
    | some (some v) =>
        processMetingen locatie rest (setInner pd1 locatie (m.tijdstip.take 13) (.num v))

/-- The outer loop of `create_print_data` (`main.py` lines 149–158):
`print_dict.setdefault(locatie, {})`, then the inner loop when
`loc_data.get("MetingenLijst")` is truthy (present and non-empty). -/
def create_print_data_go : List LocData → PrintDict → Except String PrintDict
  | [], pd => .ok pd
  | ld :: rest, pd =>
    let pd1 := setdefault pd ld.naam []
    match ld.metingenLijst with
    | some (m :: ms) =>
        match processMetingen ld.naam (m :: ms) pd1 with
        | .error e => .error e
        | .ok pd2 => create_print_data_go rest pd2
    | _ => create_print_data_go rest pd1

/-- Function `create_print_data` (`main.py` lines 146-160): start from a
dict holding only an empty index sub-dict and fold the raw responses. -/
def create_print_data (water_data : List LocData) : Except String PrintDict :=
  create_print_data_go water_data [("index", [])]

/-! ## Last-write-wins characterization of the aggregated cells -/
/-- Folds a list of numeric writes over a fallback cell: the last write,
if any, determines the stored cell. -/
def lastWrite : List ℚ → Option Cell → Option Cell
  | [], fb => fb
  | v :: rest, _ => lastWrite rest (some (.num v))

/-- The last element of a list of numeric writes. -/
def lastNum : List ℚ → Option ℚ
  | [] => none
  | v :: rest => some ((lastNum rest).getD v)

/-- The numeric values a single `MetingenLijst` writes (in iteration order)
into a station sub-dict at truncated timestamp `ts`: records whose
`Tijdstip[:13]` equals `ts` and whose nested numeric value is present. -/
def metingWrites (ts : String) : List Meting → List ℚ
  | [] => []
  | m :: ms =>
    if m.tijdstip.take 13 = ts then
      match m.meetwaarde with
      | some (some v) => v :: metingWrites ts ms
      | _ => metingWrites ts ms
    else metingWrites ts ms

/-- All numeric values the whole input writes (in iteration order) into the
sub-dict of station `loc` at truncated timestamp `ts`. -/
def writesFor : List LocData → String → String → List ℚ
  | [], _, _ => []
  | ld :: rest, loc, ts =>
    (if ld.naam = loc then
      match ld.metingenLijst with
      | some ms => metingWrites ts ms
      | none => []
     else []) ++ writesFor rest loc ts

/-- The aggregation input of the C4 example: two observations for station
`A` in the same hour. -/
def wdA : List LocData :=
  [⟨"A", some [⟨"2024-01-01T10:05", some (some 100)⟩,
               ⟨"2024-01-01T10:45", some (some 120)⟩]⟩]

/-- The table `create_print_data` builds from `wdA`. -/
def pdA : PrintDict :=
  [("index", [("2024-01-01T10", Cell.emptyDict)]),
   ("A", [("2024-01-01T10", Cell.num 120)])]

/-! ## The index invariant (C5) -/
/-- Every truncated timestamp stored in a non-`index` sub-dict is also a
key of the `index` sub-dict. -/
def IndexInv (pd : PrintDict) : Prop :=
  ∀ loc ts, loc ≠ "index" → (cellAt pd loc ts).isSome →
    (cellAt pd "index" ts).isSome

/-! ## The alarm evaluator `check_alarms` (`main.py` lines 252–316)

The evaluator reads one aggregated sub-dict per configured station; every
cell it touches is a numeric value (`float(hight)`), so the station data is
modelled as `List (Nat × ℚ)`: timestamps parsed by
`datetime.strptime(time, "%Y-%m-%dT%H")` are modelled as hours on a number
line (`Nat`), and `cutoff` models `now.replace(minute=0, second=0,
microsecond=0) - timedelta(hours=1)`; an entry qualifies when
`cutoff ≤ time` (the code's `now <= datetime.strptime(...)`). -/
/-- One per-station alarm configuration record of the `ALARMS` dict
(`main.py` lines 30–33). -/
structure AlarmCfg where
  max_level : ℚ
  norm_level : ℚ
  alarm : Severity
deriving DecidableEq, Repr

/-- The `ALARMS` dict of `main.py` lines 30–33. -/
def ALARMS : List (String × AlarmCfg) :=
  [("Lobith, Bovenrijn, haven", ⟨1100, 800, .GREEN⟩),
   ("Amerongen, beneden", ⟨425, 150, .GREEN⟩)]

/-- The inner loop of `check_alarms` over `site_data.items()`
(`main.py` lines 273–314): for each qualifying entry, classify, keep the
worst state (`order[state] > order[alarm_local]`), and set the global flag
whenever the state is not GREEN. -/
def processEntries (max_level norm_level : ℚ) (cutoff : Nat) :
    List (Nat × ℚ) → Severity → Bool → Severity × Bool
  | [], alarm_local, alarm_on => (alarm_local, alarm_on)
  | (time, hight) :: rest, alarm_local, alarm_on =>
    if cutoff ≤ time then
      processEntries max_level norm_level cutoff rest
        (if alarm_local.rank < (classify max_level norm_level hight).rank
          then classify max_level norm_level hight else alarm_local)
        (if classify max_level norm_level hight = .GREEN then alarm_on
          else true)
    else
      processEntries max_level norm_level cutoff rest alarm_local alarm_on

/-- The outer loop of `check_alarms` over the `ALARMS` sites
(`main.py` lines 265–315): a site absent from the table keeps
`alarm = GREEN`; otherwise the inner loop runs from `alarm_local = GREEN`,
and the final `alarm_local` is written back into the site's record. -/
def check_alarms_go (data : List (String × List (Nat × ℚ))) (cutoff : Nat) :
    List (String × AlarmCfg) → Bool → Bool × List (String × AlarmCfg)
  | [], alarm_on => (alarm_on, [])
  | (site, cfg) :: rest, alarm_on =>
    match getKey data site with
    | none =>
        let r := check_alarms_go data cutoff rest alarm_on
        (r.1, (site, { cfg with alarm := .GREEN }) :: r.2)
    | some site_data =>
        let p := processEntries cfg.max_level cfg.norm_level cutoff
          site_data .GREEN alarm_on
        let r := check_alarms_go data cutoff rest p.2
        (r.1, (site, { cfg with alarm := p.1 }) :: r.2)

/-- Function `check_alarms` (`main.py` lines 252–316): `alarm_on` starts
`False`; the returned pair is the Python return value together with the
final state of the mutated `ALARMS` dict. -/
def check_alarms (data : List (String × List (Nat × ℚ)))
    (alarms : List (String × AlarmCfg)) (cutoff : Nat) :
    Bool × List (String × AlarmCfg) :=
  check_alarms_go data cutoff alarms false

/-- Does one table entry trip the alarm: qualifying and not GREEN. -/
def tripsEntry (max_level norm_level : ℚ) (cutoff : Nat) (e : Nat × ℚ) : Bool :=
  decide (cutoff ≤ e.1) && decide (classify max_level norm_level e.2 ≠ .GREEN)

/-- The classifications of a station's qualifying entries, in table order. -/
def qualifyingSevs (max_level norm_level : ℚ) (cutoff : Nat)
    (sd : List (Nat × ℚ)) : List Severity :=
  (sd.filter (fun e => decide (cutoff ≤ e.1))).map
    (fun e => classify max_level norm_level e.2)

/-- The worst-state fold of the inner loop, started at GREEN. -/
def maxSev (l : List Severity) : Severity :=
  l.foldl (fun a s => if a.rank < s.rank then s else a) .GREEN

/-- The per-station severity retained by `check_alarms`. -/
def siteFinal (data : List (String × List (Nat × ℚ))) (cutoff : Nat)
    (site : String) (cfg : AlarmCfg) : Severity :=
  match getKey data site with
  | none => .GREEN
  | some sd => maxSev (qualifyingSevs cfg.max_level cfg.norm_level cutoff sd)

/-- Whether a configured station trips the alarm: some qualifying entry of
its sub-dict classifies strictly above GREEN. -/
def siteTrips (data : List (String × List (Nat × ℚ))) (cutoff : Nat)
    (p : String × AlarmCfg) : Bool :=
  match getKey data p.1 with
  | none => false
  | some sd => sd.any (tripsEntry p.2.max_level p.2.norm_level cutoff)

/-! ## The response normalizer `post_json` (`main.py` lines 40–59)

A `requests` response is modelled by its status code, its body text, and
the result of attempting to parse the body as JSON (`json = none` means
the body is not valid JSON).  `r.raise_for_status()` raises exactly for
status codes 400–599.  The checks happen in source order: 204, then
`raise_for_status`, then the blank-body test — `not r.text or not
r.text.strip()`, i.e. the body is empty or every character is whitespace,
modelled as `text.toList.all Char.isWhitespace` — then `r.json()`. -/
inductive Json
  | empty
  | value (body : String)
deriving DecidableEq, Repr

structure HttpResponse where
  status : Nat
  text : String
  json : Option Json
deriving DecidableEq, Repr

inductive PostError
  | httpError (status : Nat)
  | parseError (bodyPrefix : String)
deriving DecidableEq, Repr

/-- Function `post_json` (`main.py` lines 40–59). -/
def post_json (r : HttpResponse) : Except PostError Json :=
  if r.status = 204 then .ok .empty
  else if 400 ≤ r.status ∧ r.status < 600 then .error (.httpError r.status)
  else if r.text.toList.all Char.isWhitespace then .ok .empty
  else
    match r.json with
    | some j => .ok j
    | none => .error (.parseError (r.text.take 1000))

/-! ## The orchestration loop of `main` (`main.py` lines 319–332)

`check_waterstand` is modelled as an oracle `fetch label code type_data`
returning either an exception (`Except.error`, as raised by
`requests.raise_for_status` or the JSON parse error in `post_json`), or
`none` for the early-return paths (`return` without value), or `some
wlists`.  `main` calls it for `"meting"` then `"verwachting"` per station
and extends `waterstanden` when the result is a list; it contains no
`try/except`, so an error propagates and ends the loop. -/
/-- The per-station fetch loop of `main` (`main.py` lines 321–329),
accumulating `waterstanden`. -/
def main_fetch_loop
    (fetch : String → String → String → Except String (Option (List LocData))) :
    List (String × String) → List LocData → Except String (List LocData)
  | [], acc => .ok acc
  | (label, code) :: rest, acc =>
    match fetch label code "meting" with
    | .error e => .error e
    | .ok r1 =>
      match fetch label code "verwachting" with
      | .error e => .error e
      | .ok r2 =>
        main_fetch_loop fetch rest
          ((match r2 with
            | some l => (match r1 with
                | some l1 => acc ++ l1
                | none => acc) ++ l
            | none => match r1 with
                | some l1 => acc ++ l1
                | none => acc))

/-- A fetch oracle that raises for station `s1` and succeeds for any
other station. -/
def fetchFail : String → String → String → Except String (Option (List LocData)) :=
  fun label _ _ =>
    if label = "s1" then .error "HTTPError: 500 Server Error"
    else .ok (some [⟨"s2", some []⟩])

theorem classify_rank_mono (L H : ℚ) {h h' : ℚ} (hle : h ≤ h') :
    (classify H L h).rank ≤ (classify H L h').rank := by
  unfold classify
  split_ifs <;> (try (exfalso; linarith)) <;> decide

theorem classify_at_half (L H : ℚ) (hLH : L < H) :
    classify H L (L + 50/100 * (H - L)) = .YELLOW := by
  unfold classify
  split_ifs <;> first | rfl | (exfalso; linarith)

theorem classify_at_threequarters (L H : ℚ) (hLH : L < H) :
    classify H L (L + 75/100 * (H - L)) = .ORANGE := by
  unfold classify
  split_ifs <;> first | rfl | (exfalso; linarith)

theorem classify_at_ninetyfive (L H : ℚ) (hLH : L < H) :
    classify H L (L + 95/100 * (H - L)) = .RED := by
  unfold classify
  split_ifs <;> first | rfl | (exfalso; linarith)

theorem classify_at_max (L H : ℚ) :
    classify H L H = .BLACK := by
  unfold classify
  split_ifs <;> first | rfl | (exfalso; linarith)

/-- C1: for fixed thresholds `norm_level = L` and `max_level = H` with
`L < H` and `span = H - L`, the severity computed by the classifier of
`check_alarms` is monotonically non-decreasing in the observed value `h`
(under the rank order GREEN < YELLOW < ORANGE < RED < BLACK), and the
boundary values `L + 0.50*span`, `L + 0.75*span`, `L + 0.95*span` and `H`
map exactly to YELLOW, ORANGE, RED and BLACK respectively: every threshold
is a closed lower bound. -/
theorem alarm_classifier_monotone_and_boundaries (L H : ℚ) (hLH : L < H) :
    (∀ h h' : ℚ, h ≤ h' → (classify H L h).rank ≤ (classify H L h').rank) ∧
    classify H L (L + 50/100 * (H - L)) = .YELLOW ∧
    classify H L (L + 75/100 * (H - L)) = .ORANGE ∧
    classify H L (L + 95/100 * (H - L)) = .RED ∧
    classify H L H = .BLACK :=
  ⟨fun _ _ hle => classify_rank_mono L H hle,
   classify_at_half L H hLH,
   classify_at_threequarters L H hLH,
   classify_at_ninetyfive L H hLH,
   classify_at_max L H⟩

/-- Witness for C1 at the concrete `Lobith` configuration
`norm_level = 800`, `max_level = 1100`: the 50% boundary `950` is YELLOW. -/
theorem alarm_classifier_monotone_and_boundaries_witness :
    classify 1100 800 (800 + 50/100 * (1100 - 800)) = .YELLOW :=
  (alarm_classifier_monotone_and_boundaries 800 1100 (by norm_num)).2.1

/-- C3 counterexample: with `max_level = 1100`, `norm_level = 800` an
observed value of exactly `950` is NOT classified ORANGE by the classifier
of `check_alarms`: `950 = 800 + 0.50*300` meets the 50% threshold exactly,
and the 75% threshold `1025` is not reached. -/
theorem observed_950_not_orange :
    classify 1100 800 950 ≠ .ORANGE := by
  unfold classify
  norm_num
  decide

/-- C3 amended: with `max_level = 1100`, `norm_level = 800` an observed
value of exactly `950` at a qualifying hour is classified YELLOW (the 50%
threshold `950` is reached exactly; the 75% threshold `1025` is not). -/
theorem observed_950_is_yellow :
    classify 1100 800 950 = .YELLOW := by
  unfold classify
  norm_num

theorem getKey_setKey {α : Type} (m : List (String × α)) (k k2 : String) (v : α) :
    getKey (setKey m k v) k2 = if k = k2 then some v else getKey m k2 := by
  induction m with
  | nil => simp [getKey, setKey]
  | cons p rest ih =>
      obtain ⟨a, b⟩ := p
      simp only [setKey]
      split_ifs with h1 <;> simp only [getKey, ih] <;> split_ifs <;> simp_all

theorem getKey_append {α : Type} (m l : List (String × α)) (k : String) :
    getKey (m ++ l) k = match getKey m k with
      | some v => some v
      | none => getKey l k := by
  induction m with
  | nil => simp [getKey]
  | cons p rest ih =>
      obtain ⟨a, b⟩ := p
      simp only [List.cons_append, getKey]
      split_ifs <;> simp [ih]

theorem getKey_setdefault_isSome_self {α : Type} (m : List (String × α))
    (k : String) (v : α) : (getKey (setdefault m k v) k).isSome := by
  unfold setdefault
  rcases hk : getKey m k with _ | w
  · simp only [hk, Option.isSome_none, Bool.false_eq_true, if_false, getKey_append]
    simp [hk, getKey]
  · simp [hk]

theorem getKey_setdefault_of_isSome {α : Type} {m : List (String × α)}
    {k2 : String} (k : String) (v : α) (h : (getKey m k2).isSome) :
    getKey (setdefault m k v) k2 = getKey m k2 := by
  unfold setdefault
  rcases hk : getKey m k with _ | w
  · rcases hk2 : getKey m k2 with _ | w2
    · simp [hk2] at h
    · simp only [hk, Option.isSome_none, Bool.false_eq_true, if_false, getKey_append]
      simp [hk2]
  · simp [hk]

theorem cellAt_setdefault_empty (pd : PrintDict) (k loc ts : String) :
    cellAt (setdefault pd k []) loc ts = cellAt pd loc ts := by
  unfold cellAt setdefault
  rcases hk : getKey pd k with _ | w
  · simp only [hk, Option.isSome_none, Bool.false_eq_true, if_false, getKey_append]
    rcases hloc : getKey pd loc with _ | sub
    · simp only [getKey, Option.none_bind]
      split_ifs with h1
      · rfl
      · rfl
    · rfl
  · simp [hk]

theorem cellAt_setInner (pd : PrintDict) (k T : String) (c : Cell)
    (loc ts : String) :
    cellAt (setInner pd k T c) loc ts =
      if k = loc ∧ T = ts then some c else cellAt pd loc ts := by
  unfold cellAt setInner
  rw [getKey_setKey]
  by_cases hk : k = loc
  · subst hk
    rw [if_pos rfl]
    simp only [Option.some_bind]
    rw [getKey_setKey]
    by_cases ht : T = ts
    · simp [ht]
    · rw [if_neg ht, if_neg (fun hc => ht hc.2)]
      rcases hpk : getKey pd k with _ | sub
      · rfl
      · rfl
  · rw [if_neg hk, if_neg (fun hc => hk hc.1)]

/-! ## Step equations for the aggregator -/
theorem processMetingen_nil (locatie : String) (pd : PrintDict) :
    processMetingen locatie [] pd = .ok pd := rfl

theorem processMetingen_cons_noMeetwaarde {m : Meting}
    (hmw : m.meetwaarde = none) (locatie : String) (rest : List Meting)
    (pd : PrintDict) :
    processMetingen locatie (m :: rest) pd = .error "KeyError: Meetwaarde" := by
  simp only [processMetingen, hmw]

theorem processMetingen_cons_noNumeriek {m : Meting}
    (hmw : m.meetwaarde = some none) (locatie : String) (rest : List Meting)
    (pd : PrintDict) :
    processMetingen locatie (m :: rest) pd =
      .error "KeyError: Waarde_Numeriek" := by
  simp only [processMetingen, hmw]

theorem processMetingen_cons_num {m : Meting} {v : ℚ}
    (hmw : m.meetwaarde = some (some v)) (locatie : String)
    (rest : List Meting) (pd : PrintDict) :
    processMetingen locatie (m :: rest) pd =
      processMetingen locatie rest
        (setInner (setInner pd "index" (m.tijdstip.take 13) .emptyDict)
          locatie (m.tijdstip.take 13) (.num v)) := by
  simp only [processMetingen, hmw]

theorem create_print_data_go_nil (pd : PrintDict) :
    create_print_data_go [] pd = .ok pd := rfl

theorem create_print_data_go_cons_none {ld : LocData}
    (hml : ld.metingenLijst = none) (rest : List LocData) (pd : PrintDict) :
    create_print_data_go (ld :: rest) pd =
      create_print_data_go rest (setdefault pd ld.naam []) := by
  simp only [create_print_data_go, hml]

theorem create_print_data_go_cons_some_nil {ld : LocData}
    (hml : ld.metingenLijst = some []) (rest : List LocData) (pd : PrintDict) :
    create_print_data_go (ld :: rest) pd =
      create_print_data_go rest (setdefault pd ld.naam []) := by
  simp only [create_print_data_go, hml]

theorem create_print_data_go_cons_some_cons {ld : LocData} {m : Meting}
    {ms : List Meting} (hml : ld.metingenLijst = some (m :: ms))
    (rest : List LocData) (pd : PrintDict) :
    create_print_data_go (ld :: rest) pd =
      match processMetingen ld.naam (m :: ms) (setdefault pd ld.naam []) with
      | .error e => .error e
      | .ok pd2 => create_print_data_go rest pd2 := by
  simp only [create_print_data_go, hml]

theorem lastWrite_eq (l : List ℚ) (fb : Option Cell) :
    lastWrite l fb = match lastNum l with
      | some w => some (.num w)
      | none => fb := by
  induction l generalizing fb with
  | nil => rfl
  | cons v rest ih =>
      simp only [lastWrite, lastNum, ih]
      rcases lastNum rest with _ | w <;> simp

theorem lastWrite_append (a b : List ℚ) (fb : Option Cell) :
    lastWrite (a ++ b) fb = lastWrite b (lastWrite a fb) := by
  induction a generalizing fb with
  | nil => rfl
  | cons v rest ih =>
      simp only [List.cons_append, lastWrite]
      exact ih _

theorem metingWrites_cons_num {m : Meting} {v : ℚ}
    (hmw : m.meetwaarde = some (some v)) (ts : String) (ms : List Meting) :
    metingWrites ts (m :: ms) =
      if m.tijdstip.take 13 = ts then v :: metingWrites ts ms
      else metingWrites ts ms := by
  simp only [metingWrites, hmw]

theorem processMetingen_cellAt (locatie : String) (ms : List Meting)
    (pd pd' : PrintDict) (h : processMetingen locatie ms pd = .ok pd')
    (loc ts : String) (hloc : loc ≠ "index") :
    cellAt pd' loc ts =
      lastWrite (if locatie = loc then metingWrites ts ms else [])
        (cellAt pd loc ts) := by
  induction ms generalizing pd with
  | nil =>
      rw [processMetingen_nil] at h
      cases h
      split_ifs <;> rfl
  | cons m rest ih =>
      rcases hmw : m.meetwaarde with _ | mv
      · rw [processMetingen_cons_noMeetwaarde hmw] at h
        cases h
      · rcases mv with _ | v
        · rw [processMetingen_cons_noNumeriek hmw] at h
          cases h
        · rw [processMetingen_cons_num hmw] at h
          rw [ih _ h]
          rw [cellAt_setInner, cellAt_setInner]
          rw [metingWrites_cons_num hmw]
          by_cases h1 : locatie = loc
          · subst h1
            rw [if_pos rfl, if_pos rfl]
            by_cases h2 : m.tijdstip.take 13 = ts
            · rw [if_pos h2, if_pos ⟨rfl, h2⟩]
              rfl
            · rw [if_neg h2, if_neg (fun hc => h2 hc.2),
                  if_neg (fun hc => hloc hc.1.symm)]
          · rw [if_neg h1, if_neg h1, if_neg (fun hc => h1 hc.1),
                if_neg (fun hc => hloc hc.1.symm)]

theorem create_print_data_go_cellAt (wd : List LocData) (pd pd' : PrintDict)
    (h : create_print_data_go wd pd = .ok pd') (loc ts : String)
    (hloc : loc ≠ "index") :
    cellAt pd' loc ts = lastWrite (writesFor wd loc ts) (cellAt pd loc ts) := by
  induction wd generalizing pd with
  | nil =>
      rw [create_print_data_go_nil] at h
      cases h
      rfl
  | cons ld rest ih =>
      rcases hml : ld.metingenLijst with _ | mls
      · rw [create_print_data_go_cons_none hml] at h
        rw [ih _ h, cellAt_setdefault_empty]
        simp only [writesFor, hml]
        split_ifs <;> rfl
      · rcases mls with _ | ⟨m, ms⟩
        · rw [create_print_data_go_cons_some_nil hml] at h
          rw [ih _ h, cellAt_setdefault_empty]
          simp only [writesFor, hml, metingWrites]
          split_ifs <;> rfl
        · rw [create_print_data_go_cons_some_cons hml] at h
          rcases hpm : processMetingen ld.naam (m :: ms)
              (setdefault pd ld.naam []) with e | pd2
          · rw [hpm] at h
            cases h
          · rw [hpm] at h
            rw [ih _ h]
            rw [processMetingen_cellAt ld.naam (m :: ms) _ _ hpm loc ts hloc]
            rw [cellAt_setdefault_empty]
            simp only [writesFor, hml, lastWrite_append]

theorem create_print_data_cellAt_eq (wd : List LocData)
    (pd : PrintDict) (loc ts : String) (h : create_print_data wd = .ok pd)
    (hloc : loc ≠ "index") :
    cellAt pd loc ts = (lastNum (writesFor wd loc ts)).map Cell.num := by
  have hgo := create_print_data_go_cellAt wd _ pd h loc ts hloc
  rw [hgo, lastWrite_eq]
  have hinit : cellAt [("index", [])] loc ts = none := by
    unfold cellAt getKey
    rw [if_neg (fun hc => hloc hc.symm)]
    rfl
  rw [hinit]
  rcases lastNum (writesFor wd loc ts) with _ | w <;> rfl

/-- C4: last-write-wins.  Whenever `create_print_data` succeeds, the cell
stored for a (non-`index`) station `loc` at truncated hour `ts` is the
numeric value of the LAST observation in input order whose `Tijdstip[:13]`
equals `ts`; in particular, two observations of station `A` at `10:05`
(value 100) and `10:45` (value 120) truncate to the same hour, and the
later one wins: the stored cell at `2024-01-01T10` is `120`. -/
theorem create_print_data_last_write_wins (wd : List LocData)
    (pd : PrintDict) (loc ts : String) (h : create_print_data wd = .ok pd)
    (hloc : loc ≠ "index") :
    cellAt pd loc ts = (lastNum (writesFor wd loc ts)).map Cell.num :=
  create_print_data_cellAt_eq wd pd loc ts h hloc

theorem create_print_data_wdA : create_print_data wdA = .ok pdA := rfl

/-- Witness for C4 at the claim's literal input: the cell stored for
station `A` at hour `2024-01-01T10` is the later value `120`. -/
theorem create_print_data_last_write_wins_witness :
    cellAt pdA "A" "2024-01-01T10" =
      (lastNum (writesFor wdA "A" "2024-01-01T10")).map Cell.num ∧
    cellAt pdA "A" "2024-01-01T10" = some (.num 120) :=
  ⟨create_print_data_last_write_wins wdA pdA "A" "2024-01-01T10"
      create_print_data_wdA (by decide),
   rfl⟩

/-- C6 (code evaluated at the failing input): an observation whose
`Meetwaarde` lacks `Waarde_Numeriek`, or which lacks `Meetwaarde`
altogether, makes `create_print_data` raise a `KeyError`
(`main.py` line 158 indexes both fields directly), instead of treating the
value as absent. -/
theorem create_print_data_missing_value_raises :
    create_print_data [⟨"A", some [⟨"2024-01-01T10:00", some none⟩]⟩] =
      .error "KeyError: Waarde_Numeriek" ∧
    create_print_data [⟨"A", some [⟨"2024-01-01T10:00", none⟩]⟩] =
      .error "KeyError: Meetwaarde" :=
  ⟨rfl, rfl⟩

/-- C7 counterexample: a raw response for station `B` with no observation
list does not make the station absent from the non-`index` keys — the
`setdefault` on `main.py` line 151 inserts `B` as a key (with an empty
sub-dict) before the observation list is inspected. -/
theorem station_without_observations_is_still_a_key :
    create_print_data [⟨"B", none⟩] = .ok [("index", []), ("B", [])] ∧
    getKey [("index", ([] : List (String × Cell))), ("B", [])] "B" ≠ none :=
  ⟨rfl, by simp [getKey]⟩

theorem getKey_setKey_isSome_mono {α : Type} (m : List (String × α))
    (k : String) (v : α) {k2 : String} (h : (getKey m k2).isSome) :
    (getKey (setKey m k v) k2).isSome := by
  rw [getKey_setKey]
  split_ifs with h1
  · rfl
  · exact h

theorem processMetingen_getKey_isSome (locatie : String) (ms : List Meting)
    (pd pd' : PrintDict) (h : processMetingen locatie ms pd = .ok pd')
    (k : String) (hk : (getKey pd k).isSome) : (getKey pd' k).isSome := by
  induction ms generalizing pd with
  | nil =>
      rw [processMetingen_nil] at h
      cases h
      exact hk
  | cons m rest ih =>
      rcases hmw : m.meetwaarde with _ | mv
      · rw [processMetingen_cons_noMeetwaarde hmw] at h; cases h
      · rcases mv with _ | v
        · rw [processMetingen_cons_noNumeriek hmw] at h; cases h
        · rw [processMetingen_cons_num hmw] at h
          exact ih _ h (by
            unfold setInner
            exact getKey_setKey_isSome_mono _ _ _
              (getKey_setKey_isSome_mono _ _ _ hk))

theorem create_print_data_go_getKey_isSome (wd : List LocData)
    (pd pd' : PrintDict) (h : create_print_data_go wd pd = .ok pd')
    (k : String) (hk : (getKey pd k).isSome) : (getKey pd' k).isSome := by
  induction wd generalizing pd with
  | nil =>
      rw [create_print_data_go_nil] at h
      cases h
      exact hk
  | cons ld rest ih =>
      have hsd : (getKey (setdefault pd ld.naam []) k).isSome := by
        rw [getKey_setdefault_of_isSome _ _ hk]
        exact hk
      rcases hml : ld.metingenLijst with _ | mls
      · rw [create_print_data_go_cons_none hml] at h
        exact ih _ h hsd
      · rcases mls with _ | ⟨m, ms⟩
        · rw [create_print_data_go_cons_some_nil hml] at h
          exact ih _ h hsd
        · rw [create_print_data_go_cons_some_cons hml] at h
          rcases hpm : processMetingen ld.naam (m :: ms)
              (setdefault pd ld.naam []) with e | pd2
          · rw [hpm] at h; cases h
          · rw [hpm] at h
            exact ih _ h (processMetingen_getKey_isSome _ _ _ _ hpm _ hsd)

theorem create_print_data_go_member_key (wd : List LocData)
    (pd pd' : PrintDict) (h : create_print_data_go wd pd = .ok pd')
    (ld : LocData) (hmem : ld ∈ wd) : (getKey pd' ld.naam).isSome := by
  induction wd generalizing pd with
  | nil => cases hmem
  | cons ld0 rest ih =>
      have hsd : (getKey (setdefault pd ld0.naam []) ld0.naam).isSome :=
        getKey_setdefault_isSome_self _ _ _
      rcases List.mem_cons.mp hmem with rfl | hmem2
      · rcases hml : ld.metingenLijst with _ | mls
        · rw [create_print_data_go_cons_none hml] at h
          exact create_print_data_go_getKey_isSome _ _ _ h _ hsd
        · rcases mls with _ | ⟨m, ms⟩
          · rw [create_print_data_go_cons_some_nil hml] at h
            exact create_print_data_go_getKey_isSome _ _ _ h _ hsd
          · rw [create_print_data_go_cons_some_cons hml] at h
            rcases hpm : processMetingen ld.naam (m :: ms)
                (setdefault pd ld.naam []) with e | pd2
            · rw [hpm] at h; cases h
            · rw [hpm] at h
              exact create_print_data_go_getKey_isSome _ _ _ h _
                (processMetingen_getKey_isSome _ _ _ _ hpm _ hsd)
      · rcases hml : ld0.metingenLijst with _ | mls
        · rw [create_print_data_go_cons_none hml] at h
          exact ih _ h hmem2
        · rcases mls with _ | ⟨m, ms⟩
          · rw [create_print_data_go_cons_some_nil hml] at h
            exact ih _ h hmem2
          · rw [create_print_data_go_cons_some_cons hml] at h
            rcases hpm : processMetingen ld0.naam (m :: ms)
                (setdefault pd ld0.naam []) with e | pd2
            · rw [hpm] at h; cases h
            · rw [hpm] at h
              exact ih _ h hmem2

theorem getKey_all_none_eq_nil {α : Type} (sub : List (String × α))
    (h : ∀ ts, getKey sub ts = none) : sub = [] := by
  cases sub with
  | nil => rfl
  | cons p rest =>
      have := h p.1
      unfold getKey at this
      rw [if_pos rfl] at this
      cases this

theorem writesFor_nil_of_no_metingen (wd : List LocData) (loc ts : String)
    (h : ∀ ld2 ∈ wd, ld2.naam = loc →
      ld2.metingenLijst = none ∨ ld2.metingenLijst = some []) :
    writesFor wd loc ts = [] := by
  induction wd with
  | nil => rfl
  | cons ld rest ih =>
      simp only [writesFor]
      rw [ih (fun ld2 hm he => h ld2 (List.mem_cons_of_mem _ hm) he)]
      rw [List.append_nil]
      split_ifs with h1
      · rcases h ld (List.mem_cons_self _ _) h1 with hml | hml <;>
          simp [hml, metingWrites]
      · rfl

/-- C7 amended: a raw response whose observation list is empty or absent
never makes `create_print_data` fail, and the station DOES appear among the
non-`index` keys — `setdefault` inserts it with an empty sub-dict; when no
response contributes observations for that station its sub-dict stays
empty. -/
theorem create_print_data_empty_station_key_present (wd : List LocData)
    (pd : PrintDict) (ld : LocData) (h : create_print_data wd = .ok pd)
    (hmem : ld ∈ wd) :
    (getKey pd ld.naam).isSome ∧
    (ld.naam ≠ "index" →
      (∀ ld2 ∈ wd, ld2.naam = ld.naam →
        ld2.metingenLijst = none ∨ ld2.metingenLijst = some []) →
      getKey pd ld.naam = some []) := by
  constructor
  · exact create_print_data_go_member_key wd _ pd h ld hmem
  · intro hloc hempty
    have hkey := create_print_data_go_member_key wd _ pd h ld hmem
    rcases hsub : getKey pd ld.naam with _ | sub
    · rw [hsub] at hkey; cases hkey
    · have hcells : ∀ ts, getKey sub ts = none := by
        intro ts
        have hc := create_print_data_cellAt_eq wd pd ld.naam ts h hloc
        rw [writesFor_nil_of_no_metingen wd ld.naam ts hempty] at hc
        unfold cellAt at hc
        rw [hsub] at hc
        simpa using hc
      rw [getKey_all_none_eq_nil sub hcells]

/-- Witness for the amended C7 at a concrete input: one response for `B`
with absent observation list. -/
theorem create_print_data_empty_station_key_present_witness :
    (getKey [("index", ([] : List (String × Cell))), ("B", [])] "B").isSome ∧
    getKey [("index", ([] : List (String × Cell))), ("B", [])] "B" = some [] := by
  have h := create_print_data_empty_station_key_present [⟨"B", none⟩]
    [("index", []), ("B", [])] ⟨"B", none⟩ rfl (by simp)
  refine ⟨h.1, h.2 (by decide) ?_⟩
  intro ld2 hm _
  rw [List.mem_singleton] at hm
  subst hm
  exact Or.inl rfl

theorem indexInv_step (pd : PrintDict) (locatie T : String) (v : ℚ)
    (hinv : IndexInv pd) :
    IndexInv (setInner (setInner pd "index" T .emptyDict) locatie T (.num v)) := by
  intro loc ts hloc hsome
  rw [cellAt_setInner, cellAt_setInner] at hsome ⊢
  by_cases ht : T = ts
  · subst ht
    split_ifs with h1 h2
    · rfl
    · rfl
    · exact absurd ⟨rfl, rfl⟩ h2
  · rw [if_neg (fun hc => ht hc.2), if_neg (fun hc => ht hc.2)] at hsome
    rw [if_neg (fun hc => ht hc.2), if_neg (fun hc => ht hc.2)]
    exact hinv loc ts hloc hsome

theorem processMetingen_indexInv (locatie : String) (ms : List Meting)
    (pd pd' : PrintDict) (h : processMetingen locatie ms pd = .ok pd')
    (hinv : IndexInv pd) : IndexInv pd' := by
  induction ms generalizing pd with
  | nil =>
      rw [processMetingen_nil] at h
      cases h
      exact hinv
  | cons m rest ih =>
      rcases hmw : m.meetwaarde with _ | mv
      · rw [processMetingen_cons_noMeetwaarde hmw] at h; cases h
      · rcases mv with _ | v
        · rw [processMetingen_cons_noNumeriek hmw] at h; cases h
        · rw [processMetingen_cons_num hmw] at h
          exact ih _ h (indexInv_step pd locatie _ v hinv)

theorem setdefault_indexInv (pd : PrintDict) (k : String)
    (hinv : IndexInv pd) : IndexInv (setdefault pd k []) := by
  intro loc ts hloc hsome
  rw [cellAt_setdefault_empty] at hsome ⊢
  exact hinv loc ts hloc hsome

theorem create_print_data_go_indexInv (wd : List LocData)
    (pd pd' : PrintDict) (h : create_print_data_go wd pd = .ok pd')
    (hinv : IndexInv pd) : IndexInv pd' := by
  induction wd generalizing pd with
  | nil =>
      rw [create_print_data_go_nil] at h
      cases h
      exact hinv
  | cons ld rest ih =>
      have hsd := setdefault_indexInv pd ld.naam hinv
      rcases hml : ld.metingenLijst with _ | mls
      · rw [create_print_data_go_cons_none hml] at h
        exact ih _ h hsd
      · rcases mls with _ | ⟨m, ms⟩
        · rw [create_print_data_go_cons_some_nil hml] at h
          exact ih _ h hsd
        · rw [create_print_data_go_cons_some_cons hml] at h
          rcases hpm : processMetingen ld.naam (m :: ms)
              (setdefault pd ld.naam []) with e | pd2
          · rw [hpm] at h; cases h
          · rw [hpm] at h
            exact ih _ h (processMetingen_indexInv _ _ _ _ hpm hsd)

theorem indexInv_init : IndexInv [("index", [])] := by
  intro loc ts hloc hsome
  exfalso
  have hnone : cellAt [("index", [])] loc ts = none := by
    unfold cellAt getKey
    rw [if_neg (fun hc => hloc hc.symm)]
    rfl
  rw [hnone] at hsome
  simp at hsome

/-- C5: for every aggregation input, every timestamp key present in any
station's sub-dict of the table built by `create_print_data` is also a key
of the shared `index` sub-dict. -/
theorem create_print_data_index_superset (wd : List LocData)
    (pd : PrintDict) (loc : String) (sub : List (String × Cell)) (ts : String)
    (h : create_print_data wd = .ok pd) (hsub : getKey pd loc = some sub)
    (hts : (getKey sub ts).isSome) :
    ∃ idx, getKey pd "index" = some idx ∧ (getKey idx ts).isSome := by
  by_cases hloc : loc = "index"
  · subst hloc
    exact ⟨sub, hsub, hts⟩
  · have hinv := create_print_data_go_indexInv wd _ pd h indexInv_init
    have hcell : (cellAt pd loc ts).isSome := by
      unfold cellAt
      rw [hsub]
      simpa using hts
    have hidxcell := hinv loc ts hloc hcell
    unfold cellAt at hidxcell
    rcases hidx : getKey pd "index" with _ | idx
    · rw [hidx] at hidxcell
      simp at hidxcell
    · rw [hidx] at hidxcell
      exact ⟨idx, rfl, by simpa using hidxcell⟩

/-- Witness for C5 at the concrete input `wdA`: the hour key stored for
station `A` is also a key of `index`. -/
theorem create_print_data_index_superset_witness :
    ∃ idx, getKey pdA "index" = some idx ∧
      (getKey idx "2024-01-01T10").isSome :=
  create_print_data_index_superset wdA pdA "A"
    [("2024-01-01T10", Cell.num 120)] "2024-01-01T10"
    create_print_data_wdA rfl rfl

theorem processEntries_fst (max_level norm_level : ℚ) (cutoff : Nat)
    (l : List (Nat × ℚ)) (a : Severity) (b : Bool) :
    (processEntries max_level norm_level cutoff l a b).1 =
      (qualifyingSevs max_level norm_level cutoff l).foldl
        (fun a s => if a.rank < s.rank then s else a) a := by
  induction l generalizing a b with
  | nil => rfl
  | cons e rest ih =>
      obtain ⟨t, h⟩ := e
      simp only [processEntries]
      by_cases hc : cutoff ≤ t
      · rw [if_pos hc, ih]
        have hd : decide (cutoff ≤ t) = true := decide_eq_true hc
        simp [qualifyingSevs, List.filter_cons, hd]
      · rw [if_neg hc, ih]
        have hd : decide (cutoff ≤ t) = false := decide_eq_false hc
        simp [qualifyingSevs, List.filter_cons, hd]

theorem processEntries_snd (max_level norm_level : ℚ) (cutoff : Nat)
    (l : List (Nat × ℚ)) (a : Severity) (b : Bool) :
    (processEntries max_level norm_level cutoff l a b).2 =
      (b || l.any (tripsEntry max_level norm_level cutoff)) := by
  induction l generalizing a b with
  | nil => simp [processEntries]
  | cons e rest ih =>
      obtain ⟨t, h⟩ := e
      simp only [processEntries, List.any_cons]
      by_cases hc : cutoff ≤ t
      · rw [if_pos hc, ih]
        by_cases hg : classify max_level norm_level h = .GREEN
        · simp [hg, tripsEntry, hc]
        · simp [hg, tripsEntry, hc, Bool.or_assoc]
      · rw [if_neg hc, ih]
        simp [tripsEntry, hc]

theorem check_alarms_go_fst (data : List (String × List (Nat × ℚ)))
    (cutoff : Nat) (alarms : List (String × AlarmCfg)) (b : Bool) :
    (check_alarms_go data cutoff alarms b).1 =
      (b || alarms.any (siteTrips data cutoff)) := by
  induction alarms generalizing b with
  | nil => simp [check_alarms_go]
  | cons p rest ih =>
      obtain ⟨site, cfg⟩ := p
      rcases hd : getKey data site with _ | sd
      · simp only [check_alarms_go, hd, List.any_cons]
        rw [ih]
        simp [siteTrips, hd]
      · simp only [check_alarms_go, hd, List.any_cons]
        rw [ih, processEntries_snd]
        simp [siteTrips, hd, Bool.or_assoc]

theorem check_alarms_go_snd (data : List (String × List (Nat × ℚ)))
    (cutoff : Nat) (alarms : List (String × AlarmCfg)) (b : Bool) :
    (check_alarms_go data cutoff alarms b).2 =
      alarms.map (fun p => (p.1,
        ⟨p.2.max_level, p.2.norm_level, siteFinal data cutoff p.1 p.2⟩)) := by
  induction alarms generalizing b with
  | nil => rfl
  | cons p rest ih =>
      obtain ⟨site, cfg⟩ := p
      rcases hd : getKey data site with _ | sd
      · simp only [check_alarms_go, hd, List.map_cons]
        rw [ih]
        simp [siteFinal, hd]
      · simp only [check_alarms_go, hd, List.map_cons]
        rw [ih, processEntries_fst]
        simp [siteFinal, hd, maxSev]

theorem sevFold_init_le (l : List Severity) (a : Severity) :
    a.rank ≤ (l.foldl (fun a s => if a.rank < s.rank then s else a) a).rank := by
  induction l generalizing a with
  | nil => exact Nat.le_refl _
  | cons x rest ih =>
      simp only [List.foldl_cons]
      refine Nat.le_trans ?_ (ih _)
      by_cases h : a.rank < x.rank
      · rw [if_pos h]
        exact Nat.le_of_lt h
      · rw [if_neg h]

theorem sevFold_mem_le (l : List Severity) (a s : Severity) (hs : s ∈ l) :
    s.rank ≤ (l.foldl (fun a s => if a.rank < s.rank then s else a) a).rank := by
  induction l generalizing a with
  | nil => cases hs
  | cons x rest ih =>
      simp only [List.foldl_cons]
      rcases List.mem_cons.mp hs with rfl | h2
      · refine Nat.le_trans ?_ (sevFold_init_le rest _)
        by_cases h : a.rank < s.rank
        · rw [if_pos h]
        · rw [if_neg h]
          exact Nat.le_of_not_lt h
      · exact ih _ h2

theorem sevFold_mem_or (l : List Severity) (a : Severity) :
    l.foldl (fun a s => if a.rank < s.rank then s else a) a = a ∨
      l.foldl (fun a s => if a.rank < s.rank then s else a) a ∈ l := by
  induction l generalizing a with
  | nil => exact Or.inl rfl
  | cons x rest ih =>
      simp only [List.foldl_cons]
      by_cases hx : a.rank < x.rank
      · rw [if_pos hx]
        rcases ih x with h | h
        · right
          rw [h]
          exact List.mem_cons_self _ _
        · right
          exact List.mem_cons_of_mem _ h
      · rw [if_neg hx]
        rcases ih a with h | h
        · exact Or.inl h
        · right
          exact List.mem_cons_of_mem _ h

theorem siteTrips_iff (data : List (String × List (Nat × ℚ))) (cutoff : Nat)
    (p : String × AlarmCfg) :
    siteTrips data cutoff p = true ↔
      ∃ sd t h, getKey data p.1 = some sd ∧ (t, h) ∈ sd ∧ cutoff ≤ t ∧
        classify p.2.max_level p.2.norm_level h ≠ .GREEN := by
  unfold siteTrips
  rcases hd : getKey data p.1 with _ | sd
  · constructor
    · intro hh
      cases hh
    · rintro ⟨sd, t, h, hsd, _⟩
      cases hsd
  · constructor
    · intro hh
      rcases List.any_eq_true.mp hh with ⟨e, he, hte⟩
      obtain ⟨t, hval⟩ := e
      simp only [tripsEntry, Bool.and_eq_true] at hte
      obtain ⟨h1, h2⟩ := hte
      exact ⟨sd, t, hval, rfl, he, of_decide_eq_true h1, of_decide_eq_true h2⟩
    · rintro ⟨sd2, t, h, hsd, hmem, hct, hcl⟩
      injection hsd with hh
      subst hh
      exact List.any_eq_true.mpr
        ⟨(t, h), hmem, by simp [tripsEntry, hct, hcl]⟩

/-- C2: the global flag returned by `check_alarms` is true iff some
configured station has, at some qualifying timestamp, an observation that
classifies strictly above GREEN (so it is sticky: a later GREEN
observation never resets it); the final per-station record keeps the
levels and stores `siteFinal`, which is exactly the maximum severity over
that station's qualifying timestamps (an upper bound, and attained unless
it is GREEN). -/
theorem check_alarms_flag_and_states (data : List (String × List (Nat × ℚ)))
    (alarms : List (String × AlarmCfg)) (cutoff : Nat) :
    ((check_alarms data alarms cutoff).1 = true ↔
      ∃ site cfg sd t h, (site, cfg) ∈ alarms ∧ getKey data site = some sd ∧
        (t, h) ∈ sd ∧ cutoff ≤ t ∧
        classify cfg.max_level cfg.norm_level h ≠ .GREEN) ∧
    ((check_alarms data alarms cutoff).2 =
      alarms.map (fun p => (p.1,
        ⟨p.2.max_level, p.2.norm_level, siteFinal data cutoff p.1 p.2⟩))) ∧
    (∀ site cfg sd, getKey data site = some sd →
      (∀ t h, (t, h) ∈ sd → cutoff ≤ t →
        (classify cfg.max_level cfg.norm_level h).rank ≤
          (siteFinal data cutoff site cfg).rank) ∧
      (siteFinal data cutoff site cfg = .GREEN ∨
        ∃ t h, (t, h) ∈ sd ∧ cutoff ≤ t ∧
          classify cfg.max_level cfg.norm_level h =
            siteFinal data cutoff site cfg)) := by
  refine ⟨?_, ?_, ?_⟩
  · unfold check_alarms
    rw [check_alarms_go_fst]
    simp only [Bool.false_or]
    rw [List.any_eq_true]
    constructor
    · rintro ⟨p, hp, htrips⟩
      obtain ⟨site, cfg⟩ := p
      rcases (siteTrips_iff data cutoff (site, cfg)).mp htrips with
        ⟨sd, t, h, hsd, hmem, hct, hcl⟩
      exact ⟨site, cfg, sd, t, h, hp, hsd, hmem, hct, hcl⟩
    · rintro ⟨site, cfg, sd, t, h, hmem, hsd, hin, hct, hcl⟩
      exact ⟨(site, cfg), hmem,
        (siteTrips_iff data cutoff (site, cfg)).mpr
          ⟨sd, t, h, hsd, hin, hct, hcl⟩⟩
  · unfold check_alarms
    exact check_alarms_go_snd data cutoff alarms false
  · intro site cfg sd hsd
    constructor
    · intro t h hin hct
      have hmemq : classify cfg.max_level cfg.norm_level h ∈
          qualifyingSevs cfg.max_level cfg.norm_level cutoff sd := by
        unfold qualifyingSevs
        exact List.mem_map.mpr
          ⟨(t, h), List.mem_filter.mpr ⟨hin, by simpa using hct⟩, rfl⟩
      have hub := sevFold_mem_le
        (qualifyingSevs cfg.max_level cfg.norm_level cutoff sd) .GREEN _ hmemq
      unfold siteFinal
      simp only [hsd]
      simpa [maxSev] using hub
    · unfold siteFinal
      simp only [hsd]
      rcases sevFold_mem_or
          (qualifyingSevs cfg.max_level cfg.norm_level cutoff sd) .GREEN with
        hG | hmem2
      · left
        simpa [maxSev] using hG
      · right
        have hmem3 : maxSev (qualifyingSevs cfg.max_level cfg.norm_level
              cutoff sd) ∈
            (sd.filter (fun e => decide (cutoff ≤ e.1))).map
              (fun e => classify cfg.max_level cfg.norm_level e.2) := by
          simpa [maxSev, qualifyingSevs] using hmem2
        rcases List.mem_map.mp hmem3 with ⟨e, hef, heq⟩
        rcases List.mem_filter.mp hef with ⟨hein, hq⟩
        exact ⟨e.1, e.2, hein, of_decide_eq_true hq, heq⟩

/-- Witness for C2 at a concrete run: `Amerongen, beneden` (levels
`max = 425`, `norm = 150`) observes `430` at qualifying hour `12` with
cutoff `11`, so the global flag is raised. -/
theorem check_alarms_flag_and_states_witness :
    (check_alarms [("Amerongen, beneden", [(12, 430)])] ALARMS 11).1 = true :=
  (check_alarms_flag_and_states [("Amerongen, beneden", [(12, 430)])]
      ALARMS 11).1.mpr
    ⟨"Amerongen, beneden", ⟨425, 150, .GREEN⟩, [(12, 430)], 12, 430,
      by decide, rfl, by decide, by decide, by decide⟩

/-- C10 (frame): `check_alarms` neither adds nor removes station entries
in `ALARMS` and never changes any station's `max_level` or `norm_level`;
only the `alarm` field of each record may change. -/
theorem check_alarms_frame (data : List (String × List (Nat × ℚ)))
    (alarms : List (String × AlarmCfg)) (cutoff : Nat) :
    ((check_alarms data alarms cutoff).2).map
        (fun p => (p.1, p.2.max_level, p.2.norm_level)) =
      alarms.map (fun p => (p.1, p.2.max_level, p.2.norm_level)) := by
  unfold check_alarms
  rw [check_alarms_go_snd, List.map_map]
  rfl

/-- C9 counterexample: a `304 Not Modified` response with a blank body is
non-2xx and not 204, yet `post_json` returns the empty structure instead
of raising — `r.raise_for_status()` only raises for 4xx/5xx. -/
theorem post_json_304_not_an_error :
    (¬ (200 ≤ 304 ∧ 304 < 300)) ∧ (304 : Nat) ≠ 204 ∧
    post_json ⟨304, "", none⟩ = .ok .empty := by
  refine ⟨by decide, by decide, ?_⟩
  rfl

/-- C9 amended: `post_json` normalizes a 204 status to the empty
structure; raises an HTTP error exactly for 4xx/5xx statuses; otherwise
normalizes an empty or blank body to the empty structure; and otherwise
raises a parse error carrying the first 1000 characters of the body when
the body is not valid JSON.  (Non-204 statuses outside 400–599, e.g. 1xx
or 3xx, are NOT treated as errors.) -/
theorem post_json_normalization (r : HttpResponse) :
    (r.status = 204 → post_json r = .ok .empty) ∧
    (r.status ≠ 204 → 400 ≤ r.status → r.status < 600 →
      post_json r = .error (.httpError r.status)) ∧
    (r.status ≠ 204 → ¬(400 ≤ r.status ∧ r.status < 600) →
      r.text.toList.all Char.isWhitespace = true → post_json r = .ok .empty) ∧
    (r.status ≠ 204 → ¬(400 ≤ r.status ∧ r.status < 600) →
      r.text.toList.all Char.isWhitespace = false → r.json = none →
      post_json r = .error (.parseError (r.text.take 1000))) := by
  refine ⟨?_, ?_, ?_, ?_⟩
  · intro h204
    unfold post_json
    rw [if_pos h204]
  · intro h204 hlo hhi
    unfold post_json
    rw [if_neg h204, if_pos ⟨hlo, hhi⟩]
  · intro h204 hstat hblank
    unfold post_json
    rw [if_neg h204, if_neg hstat, if_pos hblank]
  · intro h204 hstat hblank hjson
    unfold post_json
    rw [if_neg h204, if_neg hstat, if_neg (by rw [hblank]; decide), hjson]

/-- Witness for the amended C9: a 200 response with non-JSON body `x`
raises a parse error carrying the (1000-truncated) body. -/
theorem post_json_normalization_witness :
    post_json ⟨200, "x", none⟩ =
      .error (.parseError (("x" : String).take 1000)) :=
  (post_json_normalization ⟨200, "x", none⟩).2.2.2
    (by decide) (by decide) rfl rfl

/-- C8 (code evaluated at the failing input): with two stations and a
fetch that raises for the first one, the loop of `main` ends with the
exception — the second station is never processed and contributes no
data, because `main` has no per-station `try/except`. -/
theorem main_loop_aborts_on_first_failure :
    main_fetch_loop fetchFail [("s1", "c1"), ("s2", "c2")] [] =
      .error "HTTPError: 500 Server Error" := rfl

/-- C8, propagation in general: whenever a fetch call for the head
station raises, the whole loop of `main` evaluates to that exception, for
EVERY tail of remaining stations — so no subsequent station is processed. -/
theorem main_loop_error_propagates
    (fetch : String → String → String → Except String (Option (List LocData)))
    (label code : String) (rest : List (String × String)) (acc : List LocData)
    (e : String) :
    (fetch label code "meting" = .error e →
      main_fetch_loop fetch ((label, code) :: rest) acc = .error e) ∧
    (∀ r1, fetch label code "meting" = .ok r1 →
      fetch label code "verwachting" = .error e →
      main_fetch_loop fetch ((label, code) :: rest) acc = .error e) := by
  constructor
  · intro h
    simp only [main_fetch_loop, h]
  · intro r1 h1 h2
    simp only [main_fetch_loop, h1, h2]

/-- Witness for the propagation theorem at a concrete oracle and a
single-station list. -/
theorem main_loop_error_propagates_witness :
    main_fetch_loop fetchFail [("s1", "c1")] [] =
      .error "HTTPError: 500 Server Error" :=
  (main_loop_error_propagates fetchFail "s1" "c1" [] []
    "HTTPError: 500 Server Error").1 rfl

end Waterstanden
